import Mathlib

/-!
Shallow embedding of `packages/core/src/core/ollamaContentGenerator.ts`
(class `OllamaContentGenerator`), together with theorems checking the
natural-language specification of the adapter against the code.

JavaScript values are modelled as follows: optional fields become `Option`,
objects become structures, `undefined` becomes `none`, JSON values become the
inductive `Json`, and the truthiness tests of the source (`if (part.text)`,
`systemInstruction ? ... : ...`) are modelled explicitly on the embedded
values.  Fallible entry points return `Except String`.
-/

namespace ShannonOllama

/-- A JSON value, as produced by `JSON.stringify` arguments in the source
(function-call arguments and function-response payloads). -/
inductive Json where
  | null : Json
  | bool : Bool → Json
  | num : Int → Json
  | str : String → Json
  | arr : List Json → Json
  | obj : List (String × Json) → Json

/-- One lowercase hexadecimal digit, used for JSON control-character escapes. -/
def hexDigit (n : Nat) : String :=
  String.singleton (if n < 10 then Char.ofNat (48 + n) else Char.ofNat (87 + n))

/-- `JSON.stringify` escaping of a single character inside a string literal. -/
def escapeChar (c : Char) : String :=
  if c = Char.ofNat 34 then "\\\""
  else if c = Char.ofNat 92 then "\\\\"
  else if c = Char.ofNat 10 then "\\n"
  else if c = Char.ofNat 13 then "\\r"
  else if c = Char.ofNat 9 then "\\t"
  else if c = Char.ofNat 8 then "\\b"
  else if c = Char.ofNat 12 then "\\f"
  else if c.toNat < 32 then "\\u00" ++ hexDigit (c.toNat / 16) ++ hexDigit (c.toNat % 16)
  else String.singleton c

/-- `JSON.stringify` escaping of the characters of a string literal. -/
def escapeString (s : String) : String :=
  String.join (s.data.map escapeChar)

mutual

/-- `JSON.stringify`, as used by `partsToContent` on function-call arguments
and function-response payloads. -/
def jsonStringify : Json → String
  | Json.null => "null"
  | Json.bool true => "true"
  | Json.bool false => "false"
  | Json.num n => toString n
  | Json.str s => "\"" ++ escapeString s ++ "\""
  | Json.arr xs => "[" ++ String.intercalate "," (jsonStringifyList xs) ++ "]"
  | Json.obj kvs => "\x7b" ++ String.intercalate "," (jsonStringifyKVs kvs) ++ "\x7d"

/-- Stringify every element of a JSON array. -/
def jsonStringifyList : List Json → List String
  | [] => []
  | x :: xs => jsonStringify x :: jsonStringifyList xs

/-- Stringify every key/value entry of a JSON object. -/
def jsonStringifyKVs : List (String × Json) → List String
  | [] => []
  | (k, v) :: kvs =>
      ("\"" ++ escapeString k ++ "\":" ++ jsonStringify v) :: jsonStringifyKVs kvs

end

/-- The `functionCall` field of a `Part` (`@google/genai`): an optional name
and an optional argument mapping. -/
structure FunctionCall where
  name : Option String
  args : Option Json

/-- The `functionResponse` field of a `Part`: an optional name and an
optional response mapping. -/
structure FunctionResponse where
  name : Option String
  response : Option Json

/-- A content `Part`, duck-typed as in the source: any of the three fields may
be present. -/
structure Part where
  text : Option String
  functionCall : Option FunctionCall
  functionResponse : Option FunctionResponse

/-- One conversation `Content`: an optional role tag and an optional ordered
list of parts. -/
structure Content where
  role : Option String
  parts : Option (List Part)

/-- JavaScript truthiness of an optional string: `undefined` and `""` are
falsy, every other string is truthy. -/
def truthyString : Option String → Bool
  | none => false
  | some s => s != ""

/-- JavaScript template-literal rendering of a possibly-absent name:
an absent name interpolates as the string `undefined`. -/
def jsName : Option String → String
  | some n => n
  | none => "undefined"

/-- The body of the `map` inside `partsToContent`: render one part to one
string, following the source's truthiness-guarded branch chain. -/
def partToLine (part : Part) : String :=
  if truthyString part.text then part.text.getD ""
  else
    match part.functionCall with
    | some fc =>
        "Function call " ++ jsName fc.name ++ ": " ++
          jsonStringify (fc.args.getD (Json.obj []))
    | none =>
        match part.functionResponse with
        | some fr =>
            "Function response " ++ jsName fr.name ++ ": " ++
              jsonStringify (fr.response.getD (Json.obj []))
        | none => ""

/-- JavaScript `Array.prototype.join` with a separator. -/
def joinSep (sep : String) : List String → String
  | [] => ""
  | [x] => x
  | x :: y :: tl => x ++ sep ++ joinSep sep (y :: tl)

/-- `partsToContent`: map each part to a line, drop falsy (empty) results,
join with newlines. -/
def partsToContent (parts : List Part) : String :=
  joinSep "\n" ((parts.map partToLine).filter (fun s => s != ""))

/-- One backend chat message: a role (`system`/`user`/`assistant`) and a
single string content. -/
structure BackendMessage where
  role : String
  content : String
deriving DecidableEq

/-- The body of the `map` inside `toOpenAiMessages`: role `user` iff the
content's role is exactly `"user"`, content is the flattened parts. -/
def msgOfContent (c : Content) : BackendMessage :=
  ⟨if c.role = some "user" then "user" else "assistant",
   partsToContent (c.parts.getD [])⟩

/-- `toOpenAiMessages`: one backend message per input content, in order. -/
def toOpenAiMessages (contents : List Content) : List BackendMessage :=
  contents.map msgOfContent

/-- The `systemInstruction` request field: either a raw string or a
Content-shaped value (`string | Content` in the source). -/
abbrev SystemInstruction : Type := String ⊕ Content

/-- JavaScript truthiness of a supplied system instruction: an empty string is
falsy; a non-empty string or any Content object is truthy. -/
def siTruthy : SystemInstruction → Bool
  | Sum.inl s => s != ""
  | Sum.inr _ => true

/-- Truthiness of the optional `systemInstruction` field as tested by
`systemInstruction ? ... : ...` in `generateContent`. -/
def sysTruthy : Option SystemInstruction → Bool
  | none => false
  | some s => siTruthy s

/-- Content of the prepended system message: the instruction string verbatim
when it is a string, else the flattened parts of the Content value. -/
def systemContent : SystemInstruction → String
  | Sum.inl s => s
  | Sum.inr c => partsToContent (c.parts.getD [])

/-- The `messages` array built by `generateContent`: an optional system
message (present when the instruction is truthy) followed by one message per
input content. -/
def buildMessages (contents : List Content) (si : Option SystemInstruction) :
    List BackendMessage :=
  (match si with
   | some s => if siTruthy s then [⟨"system", systemContent s⟩] else []
   | none => ([] : List BackendMessage)) ++ toOpenAiMessages contents

/-- A `message` or `delta` record of a backend choice: an optional string
content. -/
structure ChoiceMessage where
  content : Option String
deriving DecidableEq

/-- One choice of an `OllamaResponse`. -/
structure Choice where
  message : Option ChoiceMessage
  delta : Option ChoiceMessage
  finish_reason : Option String
deriving DecidableEq

/-- The optional `usage` record of an `OllamaResponse`. -/
structure Usage where
  prompt_tokens : Option Nat
  completion_tokens : Option Nat
  total_tokens : Option Nat
deriving DecidableEq

/-- The backend's JSON reply shape (`OllamaResponse` in the source). -/
structure OllamaResponse where
  choices : Option (List Choice)
  usage : Option Usage
deriving DecidableEq

/-- The two `FinishReason` enum values the translation uses. -/
inductive FinishReason where
  | STOP : FinishReason
  | MAX_TOKENS : FinishReason
deriving DecidableEq

/-- One generic response candidate: a Content and a finish reason. -/
structure Candidate where
  content : Content
  finishReason : FinishReason

/-- The generic usage record (`usageMetadata`). -/
structure GenUsageMetadata where
  promptTokenCount : Option Nat
  candidatesTokenCount : Option Nat
  totalTokenCount : Option Nat
deriving DecidableEq

/-- The generic response shape produced by the translation. -/
structure GenerateContentResponse where
  candidates : List Candidate
  usageMetadata : Option GenUsageMetadata

/-- `data?.choices?.[0]`: the first backend choice, when any. -/
def firstChoice (data : OllamaResponse) : Option Choice :=
  (data.choices.getD []).head?

/-- Modelled from the spec: the source imports `getErrorMessage` from
`../utils/errors.js`, which is not among the given sources.  The spec
describes this fallback as a synthesized error-description string derived
from the raw choice data that always yields some text; following JavaScript
string coercion of the raw non-Error choice value, an absent choice describes
as `undefined` and a present choice object as `[object Object]`. -/
def getErrorMessage : Option Choice → String
  | none => "undefined"
  | some _ => "[object Object]"

/-- The text selection chain
`choice?.message?.content ?? choice?.delta?.content ?? getErrorMessage(choice)`. -/
def selectText (choice : Option Choice) : String :=
  match (choice.bind Choice.message).bind ChoiceMessage.content with
  | some t => t
  | none =>
    match (choice.bind Choice.delta).bind ChoiceMessage.content with
    | some t => t
    | none => getErrorMessage choice

/-- The finish-reason mapping:
`choice?.finish_reason === 'length' ? MAX_TOKENS : STOP`. -/
def selectFinishReason (choice : Option Choice) : FinishReason :=
  if choice.bind Choice.finish_reason = some "length" then FinishReason.MAX_TOKENS
  else FinishReason.STOP

/-- `fromOpenAiResponse`: one candidate with role `model` and a single text
part, a mapped finish reason, and a field-for-field usage copy when the
backend supplied one. -/
def fromOpenAiResponse (data : OllamaResponse) : GenerateContentResponse :=
  ⟨[⟨⟨some "model", some [⟨some (selectText (firstChoice data)), none, none⟩]⟩,
     selectFinishReason (firstChoice data)⟩],
   data.usage.map fun u => ⟨u.prompt_tokens, u.completion_tokens, u.total_tokens⟩⟩

/-- The text of the first part of the first candidate of a generic response. -/
def firstCandidateText (r : GenerateContentResponse) : Option String :=
  (r.candidates.head?.bind fun cand => (cand.content.parts.getD []).head?).bind
    Part.text

/-- The finish reason of the first candidate of a generic response. -/
def firstCandidateFinish (r : GenerateContentResponse) : Option FinishReason :=
  r.candidates.head?.map Candidate.finishReason

/-- Modelled from the spec: the source imports `partListUnionToString` from
`./geminiRequest.js`, which is not among the given sources.  The spec (4.4)
describes it as "the Part Renderer–equivalent flattening": render each part
through the Part Renderer, drop empty renders, and join the remainder with a
newline separator; here written as a direct recursion over the part list. -/
def partListUnionToString : List Part → String
  | [] => ""
  | p :: ps =>
      if partToLine p == "" then partListUnionToString ps
      else if partListUnionToString ps == "" then partToLine p
      else partToLine p ++ "\n" ++ partListUnionToString ps

/-- `countTokens`: flatten all parts of all contents, render to text, and
estimate `max(1, ceil(length / 4))` tokens. -/
def countTokens (contents : List Content) : Nat :=
  let allParts := contents.flatMap fun c => c.parts.getD []
  let text := partListUnionToString allParts
  max 1 ((text.length + 3) / 4)

/-- The optional numeric generation knobs (`generationConfig`); the JavaScript
numbers are modelled as rationals, passed through unmodified. -/
structure GenerationConfig where
  temperature : Option ℚ
  topP : Option ℚ
  maxOutputTokens : Option Nat

/-- The JSON body POSTed to `{baseUrl}/chat/completions`. -/
structure RequestBody where
  model : String
  messages : List BackendMessage
  stream : Bool
  temperature : Option ℚ
  top_p : Option ℚ
  max_tokens : Option Nat

/-- The request body built by `generateContent` before the HTTP call. -/
def buildRequestBody (model : String) (contents : List Content)
    (cfg : Option GenerationConfig) (si : Option SystemInstruction) :
    RequestBody :=
  ⟨model, buildMessages contents si, false,
   cfg.bind GenerationConfig.temperature,
   cfg.bind GenerationConfig.topP,
   cfg.bind GenerationConfig.maxOutputTokens⟩

/-- The observable outcome of the single `fetch` call: the HTTP status, the
raw body text, and the parsed JSON body (consulted only on success). -/
structure FetchResult where
  status : Nat
  body : String
  json : OllamaResponse

/-- `generateContent`, with the network modelled as a function from the sent
request body to a fetch result: build the messages and body, issue the one
call, fail on a non-2xx status with a message carrying the status code and
the raw body text, otherwise translate the parsed reply. -/
def generateContent (model : String) (contents : List Content)
    (cfg : Option GenerationConfig) (si : Option SystemInstruction)
    (fetch : RequestBody → FetchResult) :
    Except String GenerateContentResponse :=
  let response := fetch (buildRequestBody model contents cfg si)
  if 200 ≤ response.status ∧ response.status < 300 then
    Except.ok (fromOpenAiResponse response.json)
  else
    Except.error
      ("Ollama request failed (" ++ toString response.status ++ "): " ++
        response.body)

/-- The embedding request shape (contents plus a model name). -/
structure EmbedContentParameters where
  contents : List Content
  model : String

/-- The embedding response shape (never produced by this adapter). -/
structure EmbedContentResponse where
  embeddings : List (List ℚ)

/-- `embedContent`: always throws; takes no fetch oracle, so by construction
it performs no network call. -/
def embedContent (_request : EmbedContentParameters) :
    Except String EmbedContentResponse :=
  Except.error "Embedding is not supported for Ollama backends yet."

/-- Substring containment, stated on the underlying character lists. -/
def containsStr (hay needle : String) : Prop :=
  ∃ a b, hay.data = a ++ needle.data ++ b

/-- A part as the claims read it: a tagged selection in the claimed branch
order — literal text, else the function-call line, else the
function-response line, else empty. -/
def renderPartClaim (part : Part) : String :=
  match part.text with
  | some t => t
  | none =>
    match part.functionCall with
    | some fc =>
        "Function call " ++ jsName fc.name ++ ": " ++
          jsonStringify (fc.args.getD (Json.obj []))
    | none =>
      match part.functionResponse with
      | some fr =>
          "Function response " ++ jsName fr.name ++ ": " ++
            jsonStringify (fr.response.getD (Json.obj []))
      | none => ""

/-- Well-formedness per the spec's data model: exactly one (hence at most
one) variant populated per part. -/
def WfPart (part : Part) : Prop :=
  (if part.text.isSome then 1 else 0) +
    (if part.functionCall.isSome then 1 else 0) +
    (if part.functionResponse.isSome then 1 else 0) ≤ 1

instance (part : Part) : Decidable (WfPart part) := by
  unfold WfPart; infer_instance

/-! ### Helper lemmas -/

theorem mem_filtered_ne (l : List String) (s : String)
    (h : s ∈ l.filter (fun s => s != "")) : s ≠ "" := by
  have := (List.mem_filter.mp h).2
  exact bne_iff_ne.mp this

theorem joinSep_eq_empty_iff (l : List String) (h : ∀ s ∈ l, s ≠ "") :
    joinSep "\n" l = "" ↔ l = [] := by
  match l with
  | [] => simp [joinSep]
  | [x] =>
    simp only [joinSep]
    constructor
    · intro hx; exact absurd hx (h x (by simp))
    · intro hc; cases hc
  | x :: y :: tl =>
    simp only [joinSep]
    constructor
    · intro hx
      have hlen := congrArg String.length hx
      simp [String.length_append] at hlen
      exact absurd hlen.1.2 (by decide)
    · intro hc; cases hc

theorem partsToContent_eq_empty_iff (ps : List Part) :
    partsToContent ps = "" ↔ (ps.map partToLine).filter (fun s => s != "") = [] :=
  joinSep_eq_empty_iff _ (fun s hs => mem_filtered_ne _ s hs)

theorem partsToContent_all_empty (ps : List Part)
    (h : ∀ p ∈ ps, partToLine p = "") : partsToContent ps = "" := by
  rw [partsToContent_eq_empty_iff]
  rw [List.filter_eq_nil_iff]
  intro a ha
  obtain ⟨p, hp, rfl⟩ := List.mem_map.mp ha
  simp [h p hp]

theorem partToLine_eq_renderPartClaim (p : Part) (h : WfPart p) :
    partToLine p = renderPartClaim p := by
  obtain ⟨t, fc, fr⟩ := p
  match t, fc, fr with
  | none, none, none => rfl
  | none, none, some _ => rfl
  | none, some _, none => rfl
  | none, some _, some _ => rfl
  | some s, none, none =>
    by_cases hs : s = ""
    · subst hs; simp [partToLine, renderPartClaim, truthyString]
    · simp [partToLine, renderPartClaim, truthyString, hs]
  | some s, some _, none => exact absurd h (by simp [WfPart])
  | some s, none, some _ => exact absurd h (by simp [WfPart])
  | some s, some _, some _ => exact absurd h (by simp [WfPart])

/-! ### Claim theorems -/

/-- C3: the Part Renderer maps each part in order to exactly one string per
the claimed branch selection (text → literal text; function call →
`Function call <name>: <args or empty object>`; function response →
`Function response <name>: <response or empty object>`; other/empty → empty
string), drops empty results, and joins the remainder with newlines; and a
function-call part named `lookup` with arguments `\x7b"q":"x"\x7d` renders to
the line `Function call lookup: \x7b"q":"x"\x7d`. -/
theorem partsToContent_spec :
    (∀ parts : List Part, (∀ p ∈ parts, WfPart p) →
        partsToContent parts =
          joinSep "\n" ((parts.map renderPartClaim).filter (fun s => s != ""))) ∧
      partsToContent
          [⟨none, some ⟨some "lookup", some (Json.obj [("q", Json.str "x")])⟩, none⟩] =
        "Function call lookup: \x7b\"q\":\"x\"\x7d" := by
  constructor
  · intro parts h
    have hmap : parts.map partToLine = parts.map renderPartClaim :=
      List.map_congr_left (fun p hp => partToLine_eq_renderPartClaim p (h p hp))
    unfold partsToContent
    rw [hmap]
  · rfl

/-- Witness for C3 at a concrete two-part list of well-formed parts. -/
theorem partsToContent_spec_witness :
    partsToContent
        ([⟨some "hi", none, none⟩,
          ⟨none, some ⟨some "lookup", some (Json.obj [("q", Json.str "x")])⟩, none⟩] :
          List Part) =
      joinSep "\n"
        ((([⟨some "hi", none, none⟩,
            ⟨none, some ⟨some "lookup", some (Json.obj [("q", Json.str "x")])⟩, none⟩] :
            List Part).map renderPartClaim).filter (fun s => s != "")) :=
  partsToContent_spec.1 _ (by decide)

/-- C10: part rendering resolves overlapping duck-typed fields by fixed
precedence — a truthy (non-empty) text wins over any function-call or
function-response field; an empty-string text behaves exactly like an absent
text, falling through; and a function-call field wins over a
function-response field. -/
theorem partToLine_precedence_spec :
    (∀ (t : String) fc fr, t ≠ "" → partToLine ⟨some t, fc, fr⟩ = t) ∧
      (∀ fc fr, partToLine ⟨some "", fc, fr⟩ = partToLine ⟨none, fc, fr⟩) ∧
      ∀ fc fr, partToLine ⟨none, some fc, fr⟩ = partToLine ⟨none, some fc, none⟩ := by
  refine ⟨?_, ?_, ?_⟩
  · intro t fc fr ht
    simp [partToLine, truthyString, ht]
  · intro fc fr
    simp [partToLine, truthyString]
  · intro fc fr
    simp [partToLine, truthyString]

/-- Witness for C10: a part carrying all three fields renders its text. -/
theorem partToLine_precedence_spec_witness :
    ("hi" : String) ≠ "" ∧
      partToLine ⟨some "hi", some ⟨some "f", none⟩, some ⟨some "g", none⟩⟩ = "hi" :=
  ⟨by decide,
   partToLine_precedence_spec.1 "hi" (some ⟨some "f", none⟩) (some ⟨some "g", none⟩)
     (by decide)⟩

/-- C7: the flattening `countTokens` applies before measuring length
(`partListUnionToString` over the concatenated parts) produces the same
string as the Part Renderer flattening (`partsToContent`) on the same
parts. -/
theorem partListUnionToString_eq_partsToContent :
    ∀ parts : List Part, partListUnionToString parts = partsToContent parts := by
  intro parts
  induction parts with
  | nil => rfl
  | cons p ps ih =>
    by_cases hp : partToLine p = ""
    · rw [partListUnionToString, if_pos (by simp [hp]), ih]
      simp [partsToContent, List.filter_cons, hp]
    · rw [partListUnionToString, if_neg (by simp [hp]), ih]
      by_cases hrest : partsToContent ps = ""
      · rw [if_pos (by simp [hrest])]
        have hf : (ps.map partToLine).filter (fun s => s != "") = [] :=
          (partsToContent_eq_empty_iff ps).mp hrest
        simp [partsToContent, List.filter_cons, hp, hf, joinSep]
      · rw [if_neg (by simp [hrest])]
        have hf : (ps.map partToLine).filter (fun s => s != "") ≠ [] := by
          intro h0
          exact hrest ((partsToContent_eq_empty_iff ps).mpr h0)
        obtain ⟨y, tl, hy⟩ := List.exists_cons_of_ne_nil hf
        simp only [partsToContent, List.map_cons, List.filter_cons]
        rw [if_pos (by simp [hp])]
        rw [hy, joinSep]

/-- C1 counterexample: a supplied system instruction that is the empty string
is present (`isSome`), yet `generateContent` builds no system message — the
message list for zero contents has length 0, not 1, because the source tests
the instruction's truthiness, not its presence. -/
theorem buildMessages_empty_instruction_counterexample :
    (some (Sum.inl "" : SystemInstruction)).isSome = true ∧
      (buildMessages [] (some (Sum.inl ""))).length = 0 :=
  ⟨rfl, rfl⟩

/-- C1 (amended): the backend message list built by `generateContent` has
length equal to the number of input contents plus one exactly when the system
instruction is present and truthy (a non-empty string, or any Content value);
no content is filtered out — the messages after the optional system prefix
are exactly the per-content translations in input order — and a content with
no renderable parts still yields a message whose content is the empty
string. -/
theorem buildMessages_length_spec :
    ∀ (contents : List Content) (si : Option SystemInstruction),
      (buildMessages contents si).length =
          (if sysTruthy si then 1 else 0) + contents.length ∧
        (buildMessages contents si).drop (if sysTruthy si then 1 else 0) =
          toOpenAiMessages contents ∧
        (toOpenAiMessages contents).length = contents.length ∧
        ∀ c : Content, (∀ p ∈ c.parts.getD [], partToLine p = "") →
          toOpenAiMessages [c] =
            [⟨if c.role = some "user" then "user" else "assistant", ""⟩] := by
  intro contents si
  refine ⟨?_, ?_, ?_, ?_⟩
  · match si with
    | none => simp [buildMessages, sysTruthy, toOpenAiMessages]
    | some s =>
      cases hb : siTruthy s
      · simp [buildMessages, sysTruthy, hb, toOpenAiMessages]
      · simp [buildMessages, sysTruthy, hb, toOpenAiMessages]
        omega
  · match si with
    | none => simp [buildMessages, sysTruthy]
    | some s =>
      cases hb : siTruthy s <;> simp [buildMessages, sysTruthy, hb]
  · simp [toOpenAiMessages]
  · intro c hc
    have hpc : partsToContent (c.parts.getD []) = "" :=
      partsToContent_all_empty _ hc
    simp [toOpenAiMessages, msgOfContent, hpc]

/-- Witness for C1 (amended): a content whose parts are absent still yields
one message, with empty content. -/
theorem buildMessages_length_spec_witness :
    toOpenAiMessages [⟨some "tool", none⟩] =
      [⟨if (some "tool" : Option String) = some "user" then "user" else "assistant",
        ""⟩] :=
  (buildMessages_length_spec [] none).2.2.2 ⟨some "tool", none⟩ (by simp)

/-- C5 counterexample: with a supplied empty-string system instruction the
first backend message is the first turn message (role `user`), not a system
message, because the source tests the instruction's truthiness. -/
theorem systemMessage_empty_instruction_counterexample :
    (some (Sum.inl "" : SystemInstruction)).isSome = true ∧
      (buildMessages [⟨some "user", some [⟨some "hi", none, none⟩]⟩]
            (some (Sum.inl ""))).head? =
        some ⟨"user", "hi"⟩ :=
  ⟨rfl, by decide⟩

/-- C5 (amended): for every request whose system instruction is present and
truthy (a non-empty string, or any Content value), the first backend message
has role `system` and precedes all turn messages; its content is the
instruction string verbatim when the instruction is a string; and each
subsequent message maps one input content in input order, with role `user`
exactly when the content's role is `"user"` and `assistant` otherwise. -/
theorem systemMessage_first_spec :
    ∀ (contents : List Content) (s : SystemInstruction), siTruthy s = true →
      (buildMessages contents (some s)).head? =
          some ⟨"system", systemContent s⟩ ∧
        (buildMessages contents (some s)).tail = toOpenAiMessages contents ∧
        (∀ str : String, systemContent (Sum.inl str) = str) ∧
        ∀ (i : Nat) (h : i < contents.length)
          (h2 : i < (toOpenAiMessages contents).length),
          (toOpenAiMessages contents).get ⟨i, h2⟩ =
            ⟨if (contents.get ⟨i, h⟩).role = some "user" then "user"
              else "assistant",
             partsToContent ((contents.get ⟨i, h⟩).parts.getD [])⟩ := by
  intro contents s hs
  refine ⟨?_, ?_, fun str => rfl, ?_⟩
  · simp [buildMessages, hs]
  · simp [buildMessages, hs]
  · intro i h h2
    simp [toOpenAiMessages, msgOfContent, List.get_eq_getElem, List.getElem_map]

/-- Witness for C5 (amended): the instruction `"Be concise"` yields the first
backend message `⟨"system", "Be concise"⟩`. -/
theorem systemMessage_first_spec_witness :
    siTruthy (Sum.inl "Be concise" : SystemInstruction) = true ∧
      (buildMessages [⟨some "user", some [⟨some "hi", none, none⟩]⟩]
            (some (Sum.inl "Be concise"))).head? =
        some ⟨"system", "Be concise"⟩ :=
  ⟨by decide,
   (systemMessage_first_spec [⟨some "user", some [⟨some "hi", none, none⟩]⟩]
       (Sum.inl "Be concise") (by decide)).1⟩

/-- C2: the response translation always produces exactly one candidate; the
candidate's text is the first choice's message content, else the first
choice's delta content, else the synthesized error-description string, so it
always yields some text; and the generic usage record is a field-for-field
copy of the backend usage counts when supplied, and absent otherwise. -/
theorem fromOpenAiResponse_spec :
    ∀ data : OllamaResponse,
      (fromOpenAiResponse data).candidates.length = 1 ∧
        (∀ t, ((firstChoice data).bind Choice.message).bind ChoiceMessage.content =
            some t →
          firstCandidateText (fromOpenAiResponse data) = some t) ∧
        (∀ t, ((firstChoice data).bind Choice.message).bind ChoiceMessage.content =
            none →
          ((firstChoice data).bind Choice.delta).bind ChoiceMessage.content =
            some t →
          firstCandidateText (fromOpenAiResponse data) = some t) ∧
        (((firstChoice data).bind Choice.message).bind ChoiceMessage.content =
            none →
          ((firstChoice data).bind Choice.delta).bind ChoiceMessage.content =
            none →
          firstCandidateText (fromOpenAiResponse data) =
            some (getErrorMessage (firstChoice data))) ∧
        (∀ u, data.usage = some u →
          (fromOpenAiResponse data).usageMetadata =
            some ⟨u.prompt_tokens, u.completion_tokens, u.total_tokens⟩) ∧
        (data.usage = none → (fromOpenAiResponse data).usageMetadata = none) := by
  intro data
  have htext : firstCandidateText (fromOpenAiResponse data) =
      some (selectText (firstChoice data)) := rfl
  refine ⟨rfl, ?_, ?_, ?_, ?_, ?_⟩
  · intro t h
    rw [htext]
    unfold selectText
    rw [h]
  · intro t h1 h2
    rw [htext]
    unfold selectText
    rw [h1, h2]
  · intro h1 h2
    rw [htext]
    unfold selectText
    rw [h1, h2]
  · intro u hu
    simp [fromOpenAiResponse, hu]
  · intro hu
    simp [fromOpenAiResponse, hu]

/-- Witness for C2: a reply whose first choice has completed-message content
`"hello"` translates to candidate text `"hello"`. -/
theorem fromOpenAiResponse_spec_witness :
    firstCandidateText
        (fromOpenAiResponse ⟨some [⟨some ⟨some "hello"⟩, none, none⟩], none⟩) =
      some "hello" :=
  (fromOpenAiResponse_spec ⟨some [⟨some ⟨some "hello"⟩, none, none⟩], none⟩).2.1
    "hello" (by decide)

/-- C4: the finish-reason mapping is total — a first-choice `finish_reason`
of exactly `"length"` maps to the max-tokens value, and every other string,
or its absence (including an absent first choice), maps to the normal-stop
value. -/
theorem finishReason_mapping_spec :
    ∀ data : OllamaResponse,
      ((firstChoice data).bind Choice.finish_reason = some "length" →
          firstCandidateFinish (fromOpenAiResponse data) =
            some FinishReason.MAX_TOKENS) ∧
        ((firstChoice data).bind Choice.finish_reason ≠ some "length" →
          firstCandidateFinish (fromOpenAiResponse data) =
            some FinishReason.STOP) := by
  intro data
  constructor
  · intro h
    simp [firstCandidateFinish, fromOpenAiResponse, selectFinishReason, h]
  · intro h
    simp [firstCandidateFinish, fromOpenAiResponse, selectFinishReason, h]

/-- Witness for C4: backend reason `"length"` yields the max-tokens finish
reason. -/
theorem finishReason_mapping_spec_witness :
    firstCandidateFinish
        (fromOpenAiResponse ⟨some [⟨none, none, some "length"⟩], none⟩) =
      some FinishReason.MAX_TOKENS :=
  (finishReason_mapping_spec ⟨some [⟨none, none, some "length"⟩], none⟩).1
    (by decide)

/-- C6: `countTokens` returns `max(1, ceil(L/4))` where `L` is the character
length of the flattened text — characterized as the least token count that is
at least one and covers `L` at four characters per token — so it is never
zero; empty input yields 1, a 4-character text yields 1, a 5-character text
yields 2 and a 40-character text yields 10. -/
theorem countTokens_spec :
    ∀ contents : List Content,
      1 ≤ countTokens contents ∧
        (partListUnionToString (contents.flatMap fun c => c.parts.getD [])).length ≤
          4 * countTokens contents ∧
        (∀ m, 1 ≤ m →
          (partListUnionToString
              (contents.flatMap fun c => c.parts.getD [])).length ≤ 4 * m →
          countTokens contents ≤ m) ∧
        countTokens [] = 1 ∧
        countTokens [⟨some "user", some [⟨some "abcd", none, none⟩]⟩] = 1 ∧
        countTokens [⟨some "user", some [⟨some "abcde", none, none⟩]⟩] = 2 ∧
        countTokens
            [⟨some "user",
              some [⟨some "0123456789012345678901234567890123456789", none,
                none⟩]⟩] =
          10 := by
  intro contents
  have hct : countTokens contents =
      max 1
        (((partListUnionToString
              (contents.flatMap fun c => c.parts.getD [])).length + 3) / 4) :=
    rfl
  refine ⟨?_, ?_, ?_, by decide, by decide, by decide, by decide⟩
  · rw [hct]; omega
  · rw [hct]; omega
  · intro m hm hLm
    rw [hct]; omega

/-- Witness for C6: minimality at five characters — the estimate for a
5-character text is at most 2. -/
theorem countTokens_spec_witness :
    countTokens [⟨some "user", some [⟨some "abcde", none, none⟩]⟩] ≤ 2 :=
  (countTokens_spec [⟨some "user", some [⟨some "abcde", none, none⟩]⟩]).2.2.1 2
    (by decide) (by decide)

/-- C8: for every HTTP response with a non-2xx status, `generateContent`
fails with an error message that contains both the decimal status code and
the raw response body text; no generic response is produced. -/
theorem generateContent_http_error_spec :
    ∀ (model : String) (contents : List Content) (cfg : Option GenerationConfig)
      (si : Option SystemInstruction) (fetch : RequestBody → FetchResult),
      ¬(200 ≤ (fetch (buildRequestBody model contents cfg si)).status ∧
          (fetch (buildRequestBody model contents cfg si)).status < 300) →
      ∃ msg, generateContent model contents cfg si fetch = Except.error msg ∧
        containsStr msg
          (toString (fetch (buildRequestBody model contents cfg si)).status) ∧
        containsStr msg (fetch (buildRequestBody model contents cfg si)).body := by
  intro model contents cfg si fetch h
  refine
    ⟨"Ollama request failed (" ++
        toString (fetch (buildRequestBody model contents cfg si)).status ++
        "): " ++ (fetch (buildRequestBody model contents cfg si)).body,
     ?_, ?_, ?_⟩
  · simp only [generateContent]
    rw [if_neg h]
  · exact
      ⟨("Ollama request failed (").data,
       ("): " ++ (fetch (buildRequestBody model contents cfg si)).body).data,
       by simp [String.data_append]⟩
  · exact
      ⟨("Ollama request failed (" ++
          toString (fetch (buildRequestBody model contents cfg si)).status ++
          "): ").data,
       [],
       by simp [String.data_append]⟩

/-- Witness for C8: status 500 with body `oops` yields a failure whose
message contains both `500` and `oops`. -/
theorem generateContent_http_error_spec_witness :
    ∃ msg,
      generateContent "m" [] none none (fun _ => ⟨500, "oops", ⟨none, none⟩⟩) =
          Except.error msg ∧
        containsStr msg (toString (500 : Nat)) ∧ containsStr msg "oops" :=
  generateContent_http_error_spec "m" [] none none
    (fun _ => ⟨500, "oops", ⟨none, none⟩⟩) (by decide)

/-- C9: for every input, `embedContent` fails with the fixed unsupported
message, which names the backend (`Ollama` occurs in it); the outcome is the
same for all inputs, and the definition takes no fetch oracle, so no network
call is performed before failing. -/
theorem embedContent_spec :
    (∀ req : EmbedContentParameters,
        embedContent req =
          Except.error "Embedding is not supported for Ollama backends yet.") ∧
      containsStr "Embedding is not supported for Ollama backends yet."
        "Ollama" ∧
      ∀ req1 req2 : EmbedContentParameters,
        embedContent req1 = embedContent req2 := by
  refine ⟨fun req => rfl, ?_, fun req1 req2 => rfl⟩
  exact ⟨("Embedding is not supported for ").data, (" backends yet.").data, rfl⟩

end ShannonOllama
